import Mathlib

/-
Verification development for a multi-resolution rigid image registration
engine and its notebook-level driver code.

The repository's notebooks configure and call an external registration
library; the specification defines the core engine those calls assume
(volumetric images, resampler/interpolator, rigid transforms, gradient
descent optimizer, multi-resolution driver).  Definitions below are either
translated directly from the notebook source (the orientation-selection
loop, absolute_orientation_m, register_images) or, where the engine itself
is not part of the repository, modelled from the specification; each such
definition says so in its doc comment.

All scalar arithmetic is carried out over the rationals so that every
definition is executable and every concrete instance can be evaluated.
-/

/-- A point / vector in 3D physical or index space, over the rationals. -/
structure Vec3 where
  x : ℚ
  y : ℚ
  z : ℚ
deriving DecidableEq, Repr

/-- Componentwise addition of 3-vectors. -/
def Vec3.add (u v : Vec3) : Vec3 := ⟨u.x + v.x, u.y + v.y, u.z + v.z⟩

/-- Componentwise subtraction of 3-vectors. -/
def Vec3.sub (u v : Vec3) : Vec3 := ⟨u.x - v.x, u.y - v.y, u.z - v.z⟩

/-- Componentwise (Hadamard) product of 3-vectors. -/
def Vec3.hmul (u v : Vec3) : Vec3 := ⟨u.x * v.x, u.y * v.y, u.z * v.z⟩

/-- Componentwise division of 3-vectors. -/
def Vec3.hdiv (u v : Vec3) : Vec3 := ⟨u.x / v.x, u.y / v.y, u.z / v.z⟩

/-- The zero 3-vector. -/
def Vec3.zero : Vec3 := ⟨0, 0, 0⟩

/-- A 3x3 matrix over the rationals, given by rows. -/
structure Mat3 where
  a11 : ℚ
  a12 : ℚ
  a13 : ℚ
  a21 : ℚ
  a22 : ℚ
  a23 : ℚ
  a31 : ℚ
  a32 : ℚ
  a33 : ℚ
deriving DecidableEq, Repr

/-- Matrix-vector product. -/
def Mat3.mulVec (A : Mat3) (v : Vec3) : Vec3 :=
  ⟨A.a11 * v.x + A.a12 * v.y + A.a13 * v.z,
   A.a21 * v.x + A.a22 * v.y + A.a23 * v.z,
   A.a31 * v.x + A.a32 * v.y + A.a33 * v.z⟩

/-- Matrix-matrix product. -/
def Mat3.mul (A B : Mat3) : Mat3 :=
  ⟨A.a11 * B.a11 + A.a12 * B.a21 + A.a13 * B.a31,
   A.a11 * B.a12 + A.a12 * B.a22 + A.a13 * B.a32,
   A.a11 * B.a13 + A.a12 * B.a23 + A.a13 * B.a33,
   A.a21 * B.a11 + A.a22 * B.a21 + A.a23 * B.a31,
   A.a21 * B.a12 + A.a22 * B.a22 + A.a23 * B.a32,
   A.a21 * B.a13 + A.a22 * B.a23 + A.a23 * B.a33,
   A.a31 * B.a11 + A.a32 * B.a21 + A.a33 * B.a31,
   A.a31 * B.a12 + A.a32 * B.a22 + A.a33 * B.a32,
   A.a31 * B.a13 + A.a32 * B.a23 + A.a33 * B.a33⟩

/-- Matrix transpose. -/
def Mat3.transpose (A : Mat3) : Mat3 :=
  ⟨A.a11, A.a21, A.a31, A.a12, A.a22, A.a32, A.a13, A.a23, A.a33⟩

/-- Determinant of a 3x3 matrix. -/
def Mat3.det (A : Mat3) : ℚ :=
  A.a11 * (A.a22 * A.a33 - A.a23 * A.a32)
  - A.a12 * (A.a21 * A.a33 - A.a23 * A.a31)
  + A.a13 * (A.a21 * A.a32 - A.a22 * A.a31)

/-- The identity matrix. -/
def Mat3.id : Mat3 := ⟨1, 0, 0, 0, 1, 0, 0, 0, 1⟩

/-- Inverse of a 3x3 matrix via the adjugate; meaningful when `det ≠ 0`
(rational division by zero yields zero, theorems carry the hypothesis). -/
def Mat3.inv (A : Mat3) : Mat3 :=
  let d := A.det
  ⟨(A.a22 * A.a33 - A.a23 * A.a32) / d,
   (A.a13 * A.a32 - A.a12 * A.a33) / d,
   (A.a12 * A.a23 - A.a13 * A.a22) / d,
   (A.a23 * A.a31 - A.a21 * A.a33) / d,
   (A.a11 * A.a33 - A.a13 * A.a31) / d,
   (A.a13 * A.a21 - A.a11 * A.a23) / d,
   (A.a21 * A.a32 - A.a22 * A.a31) / d,
   (A.a12 * A.a31 - A.a11 * A.a32) / d,
   (A.a11 * A.a22 - A.a12 * A.a21) / d⟩

theorem Mat3.inv_mulVec (A : Mat3) (hd : A.det ≠ 0) (v : Vec3) :
    A.inv.mulVec (A.mulVec v) = v := by
  rcases v with ⟨vx, vy, vz⟩
  simp only [Mat3.inv, Mat3.mulVec, Mat3.det] at *
  refine Vec3.mk.injEq .. ▸ ⟨?_, ?_, ?_⟩ <;> field_simp <;> ring

/-! ### Rigid 3D transform (spec section 4.3)

The rotation matrix of a Euler-parameterized rigid transform is a product
of the three axis rotations; since sine and cosine are transcendental we
parameterize each axis rotation directly by the pair (cosine, sine) of its
angle — every algebraic identity below holds for arbitrary such pairs. -/

/-- Rotation about the x axis with the given cosine and sine. -/
def rotX (c s : ℚ) : Mat3 := ⟨1, 0, 0, 0, c, -s, 0, s, c⟩

/-- Rotation about the y axis with the given cosine and sine. -/
def rotY (c s : ℚ) : Mat3 := ⟨c, 0, s, 0, 1, 0, -s, 0, c⟩

/-- Rotation about the z axis with the given cosine and sine. -/
def rotZ (c s : ℚ) : Mat3 := ⟨c, -s, 0, s, c, 0, 0, 0, 1⟩

/-- Cosine/sine pairs of the three Euler angles. -/
structure EulerAngles where
  cx : ℚ
  sx : ℚ
  cy : ℚ
  sy : ℚ
  cz : ℚ
  sz : ℚ

/-- Modelled from the spec: the rotation matrix of the rigid transform,
Euler angles applied extrinsically in the order X then Y then Z, hence the
matrix product `Rz * Ry * Rx` (spec section 4.3 parameterization). -/
def eulerMatrix (a : EulerAngles) : Mat3 :=
  (rotZ a.cz a.sz).mul ((rotY a.cy a.sy).mul (rotX a.cx a.sx))

/-- Modelled from the spec: a rigid 3D transform with Euler-angle rotation
parameters, translation parameters and a fixed center of rotation
(spec section 4.3, data model section 3 "Transform"). -/
structure RigidTransform where
  angles : EulerAngles
  translation : Vec3
  center : Vec3

/-- Modelled from the spec: the implementation form of rigid point mapping.
The engine precomputes the constant offset `t + c - R*c` once and applies
`p' = R*p + offset` per point, as rigid-transform implementations do. -/
def RigidTransform.offset (T : RigidTransform) : Vec3 :=
  (T.translation.add T.center).sub ((eulerMatrix T.angles).mulVec T.center)

/-- Modelled from the spec: `transform_point` applies the precomputed
matrix-plus-offset form of the rigid transform to a point. -/
def transform_point (T : RigidTransform) (p : Vec3) : Vec3 :=
  ((eulerMatrix T.angles).mulVec p).add T.offset

/-- The spec's stated formula, section 4.3:
`p' = R(angles)*(p - center) + center + translation`. -/
def specRigidFormula (R : Mat3) (center translation p : Vec3) : Vec3 :=
  ((R.mulVec (p.sub center)).add center).add translation

/-- C3: for every point `p`, every Euler-angle parameter vector, every
translation and every center, `transform_point` agrees with the spec
formula `p' = R(angles)*(p - center) + center + translation`, where `R`
applies the axis rotations X then Y then Z extrinsically. -/
theorem transform_point_eq_spec_formula (T : RigidTransform) (p : Vec3) :
    transform_point T p
      = specRigidFormula (eulerMatrix T.angles) T.center T.translation p := by
  rcases T with ⟨a, t, c⟩
  rcases p with ⟨px, py, pz⟩
  simp only [transform_point, specRigidFormula, RigidTransform.offset,
    Vec3.add, Vec3.sub, Mat3.mulVec]
  refine Vec3.mk.injEq .. ▸ ⟨?_, ?_, ?_⟩ <;> ring

/-! ### Resampler / Interpolator (spec section 4.1)

The resampler is the engine component the notebooks exercise through
`resample.Execute` and `resampleSliceFilter`; it is modelled from the spec:
given a source image, a target sampling grid, a transform mapping target
physical points to source physical points, an interpolation kernel and a
default fill value, produce an image on the target grid. -/

/-- The target sampling grid of an image: voxel counts, origin, spacing and
direction matrix (spec data model, section 3 "Image" geometry). -/
structure Grid3 where
  size : ℕ × ℕ × ℕ
  origin : Vec3
  spacing : Vec3
  direction : Mat3

/-- Modelled from the spec: a volumetric image is a sampling grid together
with a voxel buffer, embedded here as a total function on integer indices
(reads outside the guarded range never influence resampling results). -/
structure Image3 where
  grid : Grid3
  data : ℤ → ℤ → ℤ → ℚ

/-- Modelled from the spec: continuous index to physical point,
`p = origin + direction * (spacing ∘ index)`. -/
def Grid3.indexToPhysical (g : Grid3) (i : Vec3) : Vec3 :=
  g.origin.add (g.direction.mulVec (g.spacing.hmul i))

/-- Modelled from the spec: physical point to continuous index, the inverse
of `indexToPhysical` (meaningful when the direction matrix is invertible
and all spacings are nonzero). -/
def Grid3.physicalToContinuousIndex (g : Grid3) (p : Vec3) : Vec3 :=
  (g.direction.inv.mulVec (p.sub g.origin)).hdiv g.spacing

/-- Modelled from the spec: a continuous index is in range when it lies in
`[0, size-1]` on every axis (spec section 4.1 out-of-range rule). -/
def Grid3.inRange (g : Grid3) (c : Vec3) : Prop :=
  0 ≤ c.x ∧ c.x ≤ (g.size.1 : ℚ) - 1 ∧
  0 ≤ c.y ∧ c.y ≤ (g.size.2.1 : ℚ) - 1 ∧
  0 ≤ c.z ∧ c.z ≤ (g.size.2.2 : ℚ) - 1

instance (g : Grid3) (c : Vec3) : Decidable (g.inRange c) := by
  unfold Grid3.inRange; infer_instance

/-- Modelled from the spec: round half away from zero, the deterministic
rounding rule mandated for nearest-neighbor interpolation. -/
def roundHalfAway (x : ℚ) : ℤ :=
  if 0 ≤ x then ⌊x + 1/2⌋ else ⌈x - 1/2⌉

/-- Modelled from the spec: the cubic B-spline kernel of order 3. -/
def bspline3 (t : ℚ) : ℚ :=
  if |t| < 1 then (4 - 6 * |t| ^ 2 + 3 * |t| ^ 3) / 6
  else if |t| < 2 then (2 - |t|) ^ 3 / 6
  else 0

/-- The selectable interpolation kernels of the resampler. -/
inductive Kernel where
  | nearest
  | linear
  | cubic
deriving DecidableEq, Repr

/-- Modelled from the spec: the per-axis taps (integer index, weight) of a
kernel at a continuous coordinate: nearest-neighbor takes the rounded
index with weight one, linear the two surrounding voxels weighted by
distance, cubic the 4-wide B-spline support. -/
def kernelTaps : Kernel → ℚ → List (ℤ × ℚ)
  | .nearest, x => [(roundHalfAway x, 1)]
  | .linear, x => [(⌊x⌋, 1 - (x - ⌊x⌋)), (⌊x⌋ + 1, x - ⌊x⌋)]
  | .cubic, x =>
      [⌊x⌋ - 1, ⌊x⌋, ⌊x⌋ + 1, ⌊x⌋ + 2].map (fun j => (j, bspline3 (x - j)))

/-- Sum of a source field sampled at taps, weighted per tap. -/
def weightedSum (taps : List (ℤ × ℚ)) (g : ℤ → ℚ) : ℚ :=
  (taps.map (fun t => t.2 * g t.1)).sum

/-- Modelled from the spec: separable 3D interpolation of a source field at
a continuous index, as the tensor product of the per-axis taps. -/
def interp3 (k : Kernel) (f : ℤ → ℤ → ℤ → ℚ) (cx cy cz : ℚ) : ℚ :=
  weightedSum (kernelTaps k cx) (fun ix =>
    weightedSum (kernelTaps k cy) (fun iy =>
      weightedSum (kernelTaps k cz) (fun iz => f ix iy iz)))

/-- Modelled from the spec: the cubic path interpolates a coefficient field
computed beforehand from the source image; nearest and linear interpolate
the voxel values directly. -/
def srcField (k : Kernel) (src : Image3) (coeff : ℤ → ℤ → ℤ → ℚ) :
    ℤ → ℤ → ℤ → ℚ :=
  match k with
  | .cubic => coeff
  | _ => src.data

/-- Modelled from the spec: the Resampler.  Each target voxel index is
mapped to a physical point of the target grid, through the transform to a
source physical point, to a continuous source index; in-range indices are
interpolated with the selected kernel, out-of-range ones receive the
default fill value (spec section 4.1). -/
def resample (src : Image3) (coeff : ℤ → ℤ → ℤ → ℚ) (target : Grid3)
    (T : Vec3 → Vec3) (k : Kernel) (defaultValue : ℚ) : Image3 :=
  ⟨target, fun ix iy iz =>
    let c := src.grid.physicalToContinuousIndex
      (T (target.indexToPhysical ⟨(ix : ℚ), (iy : ℚ), (iz : ℚ)⟩))
    if src.grid.inRange c then interp3 k (srcField k src coeff) c.x c.y c.z
    else defaultValue⟩

/-- Modelled from the spec: the defining property of the cubic B-spline
coefficient field produced by the separable prefiltering pass — convolving
the coefficients with the B-spline kernel at any in-range integer grid
point reproduces the voxel value there (the interpolation condition). -/
def cubicCoeffCondition (src : Image3) (coeff : ℤ → ℤ → ℤ → ℚ) : Prop :=
  ∀ i j k : ℤ,
    src.grid.inRange ⟨(i : ℚ), (j : ℚ), (k : ℚ)⟩ →
    weightedSum ([i - 1, i, i + 1].map (fun a => (a, bspline3 ((i : ℚ) - a))))
      (fun a =>
        weightedSum ([j - 1, j, j + 1].map (fun b => (b, bspline3 ((j : ℚ) - b))))
          (fun b =>
            weightedSum ([k - 1, k, k + 1].map (fun c => (c, bspline3 ((k : ℚ) - c))))
              (fun c => coeff a b c)))
      = src.data i j k

theorem roundHalfAway_intCast (n : ℤ) : roundHalfAway (n : ℚ) = n := by
  unfold roundHalfAway
  split
  · rw [show ((n : ℚ) + 1/2) = (1/2 : ℚ) + (n : ℚ) by ring, Int.floor_add_int]
    norm_num
  · rw [show ((n : ℚ) - 1/2) = (-(1/2) : ℚ) + (n : ℚ) by ring, Int.ceil_add_int]
    norm_num

theorem grid_roundtrip (g : Grid3) (hd : g.direction.det ≠ 0)
    (hx : g.spacing.x ≠ 0) (hy : g.spacing.y ≠ 0) (hz : g.spacing.z ≠ 0)
    (i : Vec3) : g.physicalToContinuousIndex (g.indexToPhysical i) = i := by
  unfold Grid3.physicalToContinuousIndex Grid3.indexToPhysical
  rw [show (g.origin.add (g.direction.mulVec (g.spacing.hmul i))).sub g.origin
        = g.direction.mulVec (g.spacing.hmul i) by
      rcases g.origin with ⟨ox, oy, oz⟩
      simp [Vec3.add, Vec3.sub]]
  rw [Mat3.inv_mulVec g.direction hd]
  rcases i with ⟨a, b, c⟩
  simp only [Vec3.hmul, Vec3.hdiv]
  congr 1 <;> field_simp

theorem bspline3_zero : bspline3 0 = 2/3 := by norm_num [bspline3]

theorem bspline3_one : bspline3 1 = 1/6 := by norm_num [bspline3]

theorem bspline3_neg_one : bspline3 (-1) = 1/6 := by norm_num [bspline3]

theorem bspline3_neg_two : bspline3 (-2) = 0 := by norm_num [bspline3]

theorem interp3_nearest_int (f : ℤ → ℤ → ℤ → ℚ) (i j l : ℤ) :
    interp3 .nearest f (i : ℚ) (j : ℚ) (l : ℚ) = f i j l := by
  simp [interp3, kernelTaps, weightedSum, roundHalfAway_intCast]

theorem interp3_linear_int (f : ℤ → ℤ → ℤ → ℚ) (i j l : ℤ) :
    interp3 .linear f (i : ℚ) (j : ℚ) (l : ℚ) = f i j l := by
  simp [interp3, kernelTaps, weightedSum, Int.floor_intCast]

theorem cubicTaps_int (g : ℤ → ℚ) (i : ℤ) :
    weightedSum (kernelTaps .cubic (i : ℚ)) g
      = (1/6) * g (i - 1) + (2/3) * g i + (1/6) * g (i + 1) := by
  have h1 : (i : ℚ) - ((i - 1 : ℤ) : ℚ) = 1 := by push_cast; ring
  have h2 : (i : ℚ) - ((i : ℤ) : ℚ) = 0 := by ring
  have h3 : (i : ℚ) - ((i + 1 : ℤ) : ℚ) = -1 := by push_cast; ring
  have h4 : (i : ℚ) - ((i + 2 : ℤ) : ℚ) = -2 := by push_cast; ring
  simp only [kernelTaps, Int.floor_intCast, List.map_cons, List.map_nil]
  simp only [weightedSum, List.map_cons, List.map_nil, List.sum_cons,
    List.sum_nil]
  rw [h1, h2, h3, h4, bspline3_zero, bspline3_one, bspline3_neg_one,
    bspline3_neg_two]
  ring

theorem condTaps_int (g : ℤ → ℚ) (i : ℤ) :
    weightedSum ([i - 1, i, i + 1].map (fun a => (a, bspline3 ((i : ℚ) - a)))) g
      = (1/6) * g (i - 1) + (2/3) * g i + (1/6) * g (i + 1) := by
  have h1 : (i : ℚ) - ((i - 1 : ℤ) : ℚ) = 1 := by push_cast; ring
  have h2 : (i : ℚ) - ((i : ℤ) : ℚ) = 0 := by ring
  have h3 : (i : ℚ) - ((i + 1 : ℤ) : ℚ) = -1 := by push_cast; ring
  simp only [List.map_cons, List.map_nil]
  simp only [weightedSum, List.map_cons, List.map_nil, List.sum_cons,
    List.sum_nil]
  rw [h1, h2, h3, bspline3_zero, bspline3_one, bspline3_neg_one]
  ring

/-- C2: resampling an image onto its own grid through the identity
transform reproduces the source voxel value at every matching grid point,
for each of the three interpolation kernels; the cubic path assumes its
coefficient field satisfies the B-spline interpolation condition the
prefiltering pass establishes. -/
theorem resample_identity_matching_grid (src : Image3)
    (coeff : ℤ → ℤ → ℤ → ℚ) (k : Kernel) (defaultValue : ℚ)
    (hdet : src.grid.direction.det ≠ 0)
    (hsx : src.grid.spacing.x ≠ 0) (hsy : src.grid.spacing.y ≠ 0)
    (hsz : src.grid.spacing.z ≠ 0)
    (hcoeff : k = .cubic → cubicCoeffCondition src coeff)
    (i j l : ℤ)
    (hin : src.grid.inRange ⟨(i : ℚ), (j : ℚ), (l : ℚ)⟩) :
    (resample src coeff src.grid (fun p => p) k defaultValue).data i j l
      = src.data i j l := by
  have hrt := grid_roundtrip src.grid hdet hsx hsy hsz
    ⟨(i : ℚ), (j : ℚ), (l : ℚ)⟩
  simp only [resample, hrt]
  rw [if_pos hin]
  cases k with
  | nearest => exact interp3_nearest_int src.data i j l
  | linear => exact interp3_linear_int src.data i j l
  | cubic =>
      have h := hcoeff rfl i j l hin
      simp only [condTaps_int] at h
      simp only [interp3, srcField, cubicTaps_int]
      linear_combination h

/-- A concrete constant-valued 1x1x1 image used to instantiate theorems on
a fully concrete input. -/
def constImage6 : Image3 :=
  ⟨⟨(1, 1, 1), Vec3.zero, ⟨1, 1, 1⟩, Mat3.id⟩, fun _ _ _ => 6⟩

theorem resample_identity_matching_grid_witness :
    constImage6.grid.direction.det ≠ 0 ∧
    constImage6.grid.inRange ⟨((0 : ℤ) : ℚ), ((0 : ℤ) : ℚ), ((0 : ℤ) : ℚ)⟩ ∧
    (resample constImage6 (fun _ _ _ => 6) constImage6.grid (fun p => p)
        .cubic 0).data 0 0 0 = constImage6.data 0 0 0 := by
  refine ⟨by norm_num [constImage6, Mat3.det, Mat3.id],
    by norm_num [constImage6, Grid3.inRange], ?_⟩
  refine resample_identity_matching_grid constImage6 (fun _ _ _ => 6) .cubic 0
    (by norm_num [constImage6, Mat3.det, Mat3.id])
    (by norm_num [constImage6]) (by norm_num [constImage6])
    (by norm_num [constImage6]) ?_ 0 0 0
    (by norm_num [constImage6, Grid3.inRange])
  intro _ i j l _
  simp only [cubicCoeffCondition, condTaps_int]
  norm_num [constImage6]

theorem roundHalfAway_bounds (x : ℚ) (m : ℤ) (h0 : 0 ≤ x)
    (h1 : x ≤ (m : ℚ) - 1) :
    0 ≤ roundHalfAway x ∧ roundHalfAway x ≤ m - 1 := by
  unfold roundHalfAway
  rw [if_pos h0]
  constructor
  · exact Int.le_floor.mpr (by push_cast; linarith)
  · have h := Int.floor_lt.mpr (show x + 1/2 < (m : ℚ) by linarith)
    omega

/-- A concrete binary 2x1x1 image: voxel value 1 at index (1,0,0), 0 at
index (0,0,0). -/
def binImage : Image3 :=
  ⟨⟨(2, 1, 1), Vec3.zero, ⟨1, 1, 1⟩, Mat3.id⟩,
   fun a _ _ => if a = 1 then 1 else 0⟩

/-- C8: resampling with the nearest-neighbor kernel and default fill value
0 maps an image whose in-range voxel values all lie in `{0, 1}` to an image
whose voxel values all lie in `{0, 1}`, for every coefficient field, target
grid, transform and output voxel; and — second conjunct — linear
interpolation is not required to preserve this: there is a binary image, a
target grid and a rigid transform on which linear resampling produces a
value outside `{0, 1}`. -/
theorem nearest_resample_preserves_binary (src : Image3)
    (hbin : ∀ i j l : ℤ, src.grid.inRange ⟨(i : ℚ), (j : ℚ), (l : ℚ)⟩ →
      src.data i j l = 0 ∨ src.data i j l = 1) :
    (∀ (coeff : ℤ → ℤ → ℤ → ℚ) (target : Grid3) (T : Vec3 → Vec3)
        (i j l : ℤ),
      (resample src coeff target T .nearest 0).data i j l = 0 ∨
      (resample src coeff target T .nearest 0).data i j l = 1) ∧
    (∃ (bin : Image3) (coeff : ℤ → ℤ → ℤ → ℚ) (target : Grid3)
        (T : Vec3 → Vec3) (i j l : ℤ),
      (∀ a b c : ℤ, bin.grid.inRange ⟨(a : ℚ), (b : ℚ), (c : ℚ)⟩ →
        bin.data a b c = 0 ∨ bin.data a b c = 1) ∧
      (resample bin coeff target T .linear 0).data i j l ≠ 0 ∧
      (resample bin coeff target T .linear 0).data i j l ≠ 1) := by
  constructor
  · intro coeff target T i j l
    simp only [resample]
    by_cases hin : src.grid.inRange (src.grid.physicalToContinuousIndex
      (T (target.indexToPhysical ⟨(i : ℚ), (j : ℚ), (l : ℚ)⟩)))
    · rw [if_pos hin]
      obtain ⟨h1, h2, h3, h4, h5, h6⟩ := hin
      have bx := roundHalfAway_bounds _ (src.grid.size.1 : ℤ) h1
        (by push_cast; linarith)
      have by' := roundHalfAway_bounds _ (src.grid.size.2.1 : ℤ) h3
        (by push_cast; linarith)
      have bz := roundHalfAway_bounds _ (src.grid.size.2.2 : ℤ) h5
        (by push_cast; linarith)
      have hin' : src.grid.inRange
          ⟨((roundHalfAway (src.grid.physicalToContinuousIndex
              (T (target.indexToPhysical ⟨(i : ℚ), (j : ℚ), (l : ℚ)⟩))).x : ℤ) : ℚ),
           ((roundHalfAway (src.grid.physicalToContinuousIndex
              (T (target.indexToPhysical ⟨(i : ℚ), (j : ℚ), (l : ℚ)⟩))).y : ℤ) : ℚ),
           ((roundHalfAway (src.grid.physicalToContinuousIndex
              (T (target.indexToPhysical ⟨(i : ℚ), (j : ℚ), (l : ℚ)⟩))).z : ℤ) : ℚ)⟩ := by
        simp only [Grid3.inRange]
        refine ⟨?_, ?_, ?_, ?_, ?_, ?_⟩
        · exact_mod_cast bx.1
        · exact_mod_cast bx.2
        · exact_mod_cast by'.1
        · exact_mod_cast by'.2
        · exact_mod_cast bz.1
        · exact_mod_cast bz.2
      have hv := hbin _ _ _ hin'
      simpa [interp3, kernelTaps, weightedSum, srcField] using hv
    · rw [if_neg hin]
      left
      rfl
  · refine ⟨binImage, fun _ _ _ => 0,
      ⟨(2, 1, 1), Vec3.zero, ⟨1, 1, 1⟩, Mat3.id⟩,
      fun p => p.add ⟨1/2, 0, 0⟩, 0, 0, 0, ?_, ?_, ?_⟩
    · intro a b c _
      by_cases h : a = 1 <;> simp [binImage, h]
    · have hci : binImage.grid.physicalToContinuousIndex
          ((fun p => p.add ⟨1/2, 0, 0⟩)
            ((⟨(2, 1, 1), Vec3.zero, ⟨1, 1, 1⟩, Mat3.id⟩ :
              Grid3).indexToPhysical
              ⟨((0 : ℤ) : ℚ), ((0 : ℤ) : ℚ), ((0 : ℤ) : ℚ)⟩))
          = ⟨1/2, 0, 0⟩ := by
        norm_num [binImage, Grid3.physicalToContinuousIndex,
          Grid3.indexToPhysical, Mat3.inv, Mat3.det, Mat3.id, Mat3.mulVec,
          Vec3.add, Vec3.sub, Vec3.hmul, Vec3.hdiv, Vec3.zero]
      simp only [resample, hci]
      rw [if_pos (by norm_num [binImage, Grid3.inRange])]
      norm_num [binImage, interp3, kernelTaps, weightedSum, srcField]
    · have hci : binImage.grid.physicalToContinuousIndex
          ((fun p => p.add ⟨1/2, 0, 0⟩)
            ((⟨(2, 1, 1), Vec3.zero, ⟨1, 1, 1⟩, Mat3.id⟩ :
              Grid3).indexToPhysical
              ⟨((0 : ℤ) : ℚ), ((0 : ℤ) : ℚ), ((0 : ℤ) : ℚ)⟩))
          = ⟨1/2, 0, 0⟩ := by
        norm_num [binImage, Grid3.physicalToContinuousIndex,
          Grid3.indexToPhysical, Mat3.inv, Mat3.det, Mat3.id, Mat3.mulVec,
          Vec3.add, Vec3.sub, Vec3.hmul, Vec3.hdiv, Vec3.zero]
      simp only [resample, hci]
      rw [if_pos (by norm_num [binImage, Grid3.inRange])]
      norm_num [binImage, interp3, kernelTaps, weightedSum, srcField]

theorem nearest_resample_preserves_binary_witness :
    (∀ i j l : ℤ, binImage.grid.inRange ⟨(i : ℚ), (j : ℚ), (l : ℚ)⟩ →
      binImage.data i j l = 0 ∨ binImage.data i j l = 1) ∧
    ((resample binImage (fun _ _ _ => 0) binImage.grid (fun p => p)
        .nearest 0).data 0 0 0 = 0 ∨
     (resample binImage (fun _ _ _ => 0) binImage.grid (fun p => p)
        .nearest 0).data 0 0 0 = 1) := by
  have hb : ∀ i j l : ℤ,
      binImage.grid.inRange ⟨(i : ℚ), (j : ℚ), (l : ℚ)⟩ →
      binImage.data i j l = 0 ∨ binImage.data i j l = 1 := by
    intro i j l _
    by_cases h : i = 1 <;> simp [binImage, h]
  exact ⟨hb, (nearest_resample_preserves_binary binImage hb).1
    (fun _ _ _ => 0) binImage.grid (fun p => p) 0 0 0⟩

/-- Modelled from the spec: the enumerated stop conditions of the
optimizer state machine (spec section 4.5), `diverged` being the non-fatal
absorption of numerical failures (spec section 7). -/
inductive StopCondition where
  | maxIterationsReached
  | converged
  | gradientTooSmall
  | diverged
deriving DecidableEq, Repr

/-- Modelled from the spec: the gradient descent configuration — learning
rate, iteration budget, convergence window and tolerance, and the gradient
magnitude tolerance.  The gradient magnitude test is carried out on the
squared magnitude against a squared tolerance so that the model stays in
exact rational arithmetic. -/
structure GDConfig where
  learningRate : ℚ
  maxIterations : ℕ
  convergenceWindowSize : ℕ
  convergenceTolerance : ℚ
  gradMagToleranceSq : ℚ

/-- Modelled from the spec: the optimizer state — current parameter
vector, iteration counter and value history (spec data model section 3,
"Optimizer State"); the history is kept most recent first. -/
structure GDState where
  params : List ℚ
  iter : ℕ
  history : List ℚ
deriving DecidableEq, Repr

/-- Modelled from the spec: the update rule
`params -= learningRate * scale * gradient`, componentwise over the
parameter vector (spec section 4.5). -/
def gdUpdate (lr : ℚ) (scales grad params : List ℚ) : List ℚ :=
  List.zipWith (fun p sg => p - lr * sg) params
    (List.zipWith (fun a b => a * b) scales grad)

/-- Squared magnitude of the scaled gradient. -/
def scaledNormSq (scales grad : List ℚ) : ℚ :=
  ((List.zipWith (fun a b => a * b) scales grad).map (fun t => t * t)).sum

/-- Modelled from the spec: the convergence test — the metric value failed
to improve beyond the tolerance for the configured number of consecutive
iterations; inspects the first `w` adjacent pairs of the value history and
is false when the history is still too short. -/
def flatWindow (tol : ℚ) : ℕ → List ℚ → Bool
  | 0, _ => true
  | _ + 1, [] => false
  | _ + 1, [_] => false
  | w + 1, a :: b :: rest => decide (b - a < tol) && flatWindow tol w (b :: rest)

/-- One optimizer iteration: apply the update rule to the parameters,
advance the iteration counter and record the metric value. -/
def gdNext (cfg : GDConfig) (scales : List ℚ) (m : List ℚ → ℚ × List ℚ)
    (st : GDState) : GDState :=
  ⟨gdUpdate cfg.learningRate scales (m st.params).2 st.params,
   st.iter + 1, (m st.params).1 :: st.history⟩

/-- Result of an optimizer run: final state, stop condition and the list
of states at which an update was executed, in order. -/
structure GDResult where
  final : GDState
  stop : StopCondition
  visited : List GDState

/-- Modelled from the spec: the optimizer iteration loop.  Each pass
evaluates the metric, stops with `converged` when the value history is
flat over the window, stops with `gradientTooSmall` when the scaled
gradient magnitude falls below tolerance, and otherwise applies the update
rule; exhausting the iteration budget stops with `maxIterationsReached`. -/
def gdLoop (cfg : GDConfig) (scales : List ℚ) (m : List ℚ → ℚ × List ℚ) :
    ℕ → GDState → GDResult
  | 0, st => ⟨st, .maxIterationsReached, []⟩
  | fuel + 1, st =>
    if flatWindow cfg.convergenceTolerance cfg.convergenceWindowSize
        ((m st.params).1 :: st.history) then
      ⟨st, .converged, []⟩
    else if scaledNormSq scales (m st.params).2 < cfg.gradMagToleranceSq then
      ⟨st, .gradientTooSmall, []⟩
    else
      ⟨(gdLoop cfg scales m fuel (gdNext cfg scales m st)).final,
       (gdLoop cfg scales m fuel (gdNext cfg scales m st)).stop,
       st :: (gdLoop cfg scales m fuel (gdNext cfg scales m st)).visited⟩

/-- A full optimizer run from an initial parameter vector: iterate up to
the configured maximum number of iterations. -/
def gdRun (cfg : GDConfig) (scales : List ℚ) (m : List ℚ → ℚ × List ℚ)
    (p0 : List ℚ) : GDResult :=
  gdLoop cfg scales m cfg.maxIterations ⟨p0, 0, []⟩

theorem gdLoop_chain (cfg : GDConfig) (scales : List ℚ)
    (m : List ℚ → ℚ × List ℚ) (fuel : ℕ) (st : GDState) :
    (gdLoop cfg scales m fuel st).visited =
      (List.range (gdLoop cfg scales m fuel st).visited.length).map
        (fun n => (gdNext cfg scales m)^[n] st) ∧
    (gdLoop cfg scales m fuel st).final =
      (gdNext cfg scales m)^[(gdLoop cfg scales m fuel st).visited.length] st := by
  induction fuel generalizing st with
  | zero => simp [gdLoop]
  | succ fuel ih =>
    rw [gdLoop]
    split_ifs with h1 h2
    · simp
    · simp
    · obtain ⟨hv, hf⟩ := ih (gdNext cfg scales m st)
      constructor
      · show st :: (gdLoop cfg scales m fuel (gdNext cfg scales m st)).visited = _
        rw [List.length_cons, List.range_succ_eq_map, List.map_cons,
          List.map_map]
        rw [hv, List.length_map, List.length_range]
        rfl
      · show (gdLoop cfg scales m fuel (gdNext cfg scales m st)).final = _
        rw [hf, List.length_cons, Function.iterate_succ_apply]

theorem gdLoop_visited_no_stop (cfg : GDConfig) (scales : List ℚ)
    (m : List ℚ → ℚ × List ℚ) (fuel : ℕ) (st : GDState) :
    ∀ s ∈ (gdLoop cfg scales m fuel st).visited,
      flatWindow cfg.convergenceTolerance cfg.convergenceWindowSize
        ((m s.params).1 :: s.history) = false ∧
      ¬ scaledNormSq scales (m s.params).2 < cfg.gradMagToleranceSq := by
  induction fuel generalizing st with
  | zero => simp [gdLoop]
  | succ fuel ih =>
    rw [gdLoop]
    split_ifs with h1 h2
    · simp
    · simp
    · intro s hs
      rcases List.mem_cons.mp hs with h | h
      · subst h
        exact ⟨Bool.not_eq_true _ ▸ h1, h2⟩
      · exact ih (gdNext cfg scales m st) s h
    
theorem gdLoop_visited_length_le (cfg : GDConfig) (scales : List ℚ)
    (m : List ℚ → ℚ × List ℚ) (fuel : ℕ) (st : GDState) :
    (gdLoop cfg scales m fuel st).visited.length ≤ fuel := by
  induction fuel generalizing st with
  | zero => simp [gdLoop]
  | succ fuel ih =>
    rw [gdLoop]
    split_ifs with h1 h2
    · simp
    · simp
    · simpa using ih (gdNext cfg scales m st)

theorem gdLoop_stop_max (cfg : GDConfig) (scales : List ℚ)
    (m : List ℚ → ℚ × List ℚ) (fuel : ℕ) (st : GDState) :
    (gdLoop cfg scales m fuel st).stop = .maxIterationsReached →
      (gdLoop cfg scales m fuel st).visited.length = fuel := by
  induction fuel generalizing st with
  | zero => simp [gdLoop]
  | succ fuel ih =>
    rw [gdLoop]
    split_ifs with h1 h2
    · simp
    · simp
    · intro h
      simpa using ih (gdNext cfg scales m st) h

theorem gdLoop_stop_conv (cfg : GDConfig) (scales : List ℚ)
    (m : List ℚ → ℚ × List ℚ) (fuel : ℕ) (st : GDState) :
    (gdLoop cfg scales m fuel st).stop = .converged →
      flatWindow cfg.convergenceTolerance cfg.convergenceWindowSize
        ((m (gdLoop cfg scales m fuel st).final.params).1 ::
          (gdLoop cfg scales m fuel st).final.history) = true := by
  induction fuel generalizing st with
  | zero => simp [gdLoop]
  | succ fuel ih =>
    rw [gdLoop]
    split_ifs with h1 h2
    · intro _
      exact h1
    · simp
    · exact ih (gdNext cfg scales m st)

theorem gdLoop_stop_grad (cfg : GDConfig) (scales : List ℚ)
    (m : List ℚ → ℚ × List ℚ) (fuel : ℕ) (st : GDState) :
    (gdLoop cfg scales m fuel st).stop = .gradientTooSmall →
      scaledNormSq scales (m (gdLoop cfg scales m fuel st).final.params).2
        < cfg.gradMagToleranceSq := by
  induction fuel generalizing st with
  | zero => simp [gdLoop]
  | succ fuel ih =>
    rw [gdLoop]
    split_ifs with h1 h2
    · simp
    · intro _
      exact h2
    · exact ih (gdNext cfg scales m st)

theorem gdNext_iterate_iter (cfg : GDConfig) (scales : List ℚ)
    (m : List ℚ → ℚ × List ℚ) (st : GDState) (n : ℕ) :
    ((gdNext cfg scales m)^[n] st).iter = st.iter + n := by
  induction n with
  | zero => simp
  | succ n ih =>
    rw [Function.iterate_succ_apply', gdNext]
    simp [ih]
    omega

/-- C4: every executed optimizer iteration updates the parameter vector by
`params -= learningRate * scale * gradient` (the visited states and the
final state form the iterate chain of `gdNext`, whose parameter update is
exactly that formula), and iteration stops exactly when (a) the iteration
count reaches the configured maximum, (b) the metric value has failed to
improve beyond the convergence tolerance over the configured window, or
(c) the scaled gradient magnitude falls below its tolerance: the returned
stop condition's defining predicate holds at the final state, and at every
state where iteration continued none of the three conditions held. -/
theorem gradient_descent_update_and_stop (cfg : GDConfig) (scales : List ℚ)
    (m : List ℚ → ℚ × List ℚ) (p0 : List ℚ) :
    (∀ st : GDState, (gdNext cfg scales m st).params =
        List.zipWith (fun p sg => p - cfg.learningRate * sg) st.params
          (List.zipWith (fun a b => a * b) scales (m st.params).2)) ∧
    ((gdRun cfg scales m p0).visited =
        (List.range (gdRun cfg scales m p0).visited.length).map
          (fun n => (gdNext cfg scales m)^[n] ⟨p0, 0, []⟩) ∧
      (gdRun cfg scales m p0).final =
        (gdNext cfg scales m)^[(gdRun cfg scales m p0).visited.length]
          ⟨p0, 0, []⟩) ∧
    (∀ s ∈ (gdRun cfg scales m p0).visited,
      s.iter < cfg.maxIterations ∧
      flatWindow cfg.convergenceTolerance cfg.convergenceWindowSize
        ((m s.params).1 :: s.history) = false ∧
      ¬ scaledNormSq scales (m s.params).2 < cfg.gradMagToleranceSq) ∧
    ((gdRun cfg scales m p0).stop = .maxIterationsReached →
      (gdRun cfg scales m p0).final.iter = cfg.maxIterations) ∧
    ((gdRun cfg scales m p0).stop = .converged →
      flatWindow cfg.convergenceTolerance cfg.convergenceWindowSize
        ((m (gdRun cfg scales m p0).final.params).1 ::
          (gdRun cfg scales m p0).final.history) = true) ∧
    ((gdRun cfg scales m p0).stop = .gradientTooSmall →
      scaledNormSq scales (m (gdRun cfg scales m p0).final.params).2
        < cfg.gradMagToleranceSq) := by
  refine ⟨fun st => rfl, gdLoop_chain cfg scales m cfg.maxIterations _,
    ?_, ?_, gdLoop_stop_conv cfg scales m cfg.maxIterations _,
    gdLoop_stop_grad cfg scales m cfg.maxIterations _⟩
  · intro s hs
    have hno := gdLoop_visited_no_stop cfg scales m cfg.maxIterations
      ⟨p0, 0, []⟩ s hs
    refine ⟨?_, hno.1, hno.2⟩
    have hchain := (gdLoop_chain cfg scales m cfg.maxIterations ⟨p0, 0, []⟩).1
    rw [gdRun] at hs
    rw [hchain] at hs
    obtain ⟨n, hn, hsn⟩ := List.mem_map.mp hs
    have hiter : s.iter = n := by
      rw [← hsn, gdNext_iterate_iter]
      simp
    rw [hiter]
    have hlen := gdLoop_visited_length_le cfg scales m cfg.maxIterations
      ⟨p0, 0, []⟩
    have := List.mem_range.mp hn
    omega
  · intro h
    have hlen := gdLoop_stop_max cfg scales m cfg.maxIterations ⟨p0, 0, []⟩ h
    have hchain := (gdLoop_chain cfg scales m cfg.maxIterations ⟨p0, 0, []⟩).2
    rw [gdRun, hchain, gdNext_iterate_iter, hlen]
    simp

theorem gradient_descent_update_and_stop_witness :
    (gdRun ⟨1, 3, 0, 1, 0⟩ [1] (fun p => ((0 : ℚ), p)) [1]).stop
      = .converged ∧
    flatWindow (1 : ℚ) 0
      (((fun p => ((0 : ℚ), p))
          (gdRun ⟨1, 3, 0, 1, 0⟩ [1] (fun p => ((0 : ℚ), p)) [1]).final.params).1 ::
        (gdRun ⟨1, 3, 0, 1, 0⟩ [1] (fun p => ((0 : ℚ), p)) [1]).final.history)
      = true := by
  have h := (gradient_descent_update_and_stop ⟨1, 3, 0, 1, 0⟩ [1]
    (fun p => ((0 : ℚ), p)) [1]).2.2.2.2.1
  exact ⟨rfl, h rfl⟩

/-- Modelled from the spec: the outcome of one metric evaluation as seen
by the driver — a value/gradient pair, or one of the two mid-run numerical
failures of spec section 7 (NaN gradient, zero-sample evaluation). -/
inductive MetricOutcome where
  | ok (value : ℚ) (grad : List ℚ)
  | nanGradient
  | zeroSamples
deriving DecidableEq, Repr

/-- Modelled from the spec: configuration errors raised immediately to the
caller (mismatched dimensionality or pixel type, spec section 7). -/
inductive ConfigError where
  | dimensionMismatch
  | pixelTypeMismatch
deriving DecidableEq, Repr

/-- Modelled from the spec: the per-level optimization loop as the driver
sees it — a metric failure is absorbed into the `diverged` stop condition
with the current (last valid) parameters returned; the full stop logic of
the optimizer is modelled separately by `gdLoop`. -/
def levelLoop (lr : ℚ) (scales : List ℚ) (m : List ℚ → MetricOutcome) :
    ℕ → List ℚ → List ℚ × StopCondition
  | 0, p => (p, .maxIterationsReached)
  | fuel + 1, p =>
    match m p with
    | .nanGradient => (p, .diverged)
    | .zeroSamples => (p, .diverged)
    | .ok _ g => levelLoop lr scales m fuel (gdUpdate lr scales g p)

/-- Modelled from the spec: the multi-resolution controller (spec section
4.6).  Levels are processed in list order, each level's optimization
seeded with the previous level's result; the trace records, per level, the
level index and the seed parameters.  The stop condition of the last level
is reported (the caller's `sc` is returned untouched only when the level
list is empty). -/
def driverLevels (opt : ℕ → List ℚ → List ℚ × StopCondition) :
    ℕ → List (ℕ × ℚ) → List ℚ → StopCondition →
      List ℚ × StopCondition × List (ℕ × List ℚ)
  | _, [], p, sc => (p, sc, [])
  | i, _ :: rest, p, _ =>
    ((driverLevels opt (i + 1) rest (opt i p).1 (opt i p).2).1,
     (driverLevels opt (i + 1) rest (opt i p).1 (opt i p).2).2.1,
     (i, p) :: (driverLevels opt (i + 1) rest (opt i p).1 (opt i p).2).2.2)

/-- The chain of per-level seeds: level 0 is seeded by the initial
parameters, level i+1 by the result of running level i. -/
def seedChain (opt : ℕ → List ℚ → List ℚ × StopCondition) :
    ℕ → List ℚ → ℕ → List ℚ
  | _, p, 0 => p
  | i, p, n + 1 => seedChain opt (i + 1) (opt i p).1 n

/-- Modelled from the spec: the driver's register operation — validate the
configuration (dimensionality and pixel type must match, spec section 7),
then run the multi-resolution loop with the per-level optimizer; the body
after validation always produces an `ok` transform and stop condition. -/
def registerDriver (dimFixed dimMoving pixFixed pixMoving : ℕ) (lr : ℚ)
    (scales : List ℚ) (fuel : ℕ) (m : ℕ → List ℚ → MetricOutcome)
    (levels : List (ℕ × ℚ)) (p0 : List ℚ) :
    Except ConfigError (List ℚ × StopCondition) :=
  if dimFixed ≠ dimMoving then .error .dimensionMismatch
  else if pixFixed ≠ pixMoving then .error .pixelTypeMismatch
  else
    .ok ((driverLevels (fun i p => levelLoop lr scales (m i) fuel p)
            0 levels p0 .converged).1,
         (driverLevels (fun i p => levelLoop lr scales (m i) fuel p)
            0 levels p0 .converged).2.1)

theorem driverLevels_trace (opt : ℕ → List ℚ → List ℚ × StopCondition)
    (levels : List (ℕ × ℚ)) :
    ∀ (i : ℕ) (p : List ℚ) (sc : StopCondition),
      (driverLevels opt i levels p sc).2.2
        = (List.range levels.length).map
            (fun n => (i + n, seedChain opt i p n)) ∧
      (driverLevels opt i levels p sc).1
        = seedChain opt i p levels.length := by
  induction levels with
  | nil => intro i p sc; simp [driverLevels, seedChain]
  | cons l rest ih =>
    intro i p sc
    obtain ⟨ht, hf⟩ := ih (i + 1) (opt i p).1 (opt i p).2
    constructor
    · show (i, p) :: (driverLevels opt (i + 1) rest (opt i p).1
        (opt i p).2).2.2 = _
      rw [ht, List.length_cons, List.range_succ_eq_map, List.map_cons,
        List.map_map]
      refine congrArg₂ _ rfl ?_
      apply List.map_congr_left
      intro n _
      simp only [Function.comp_apply, Prod.mk.injEq]
      exact ⟨by omega, rfl⟩
    · show (driverLevels opt (i + 1) rest (opt i p).1 (opt i p).2).1 = _
      rw [hf, List.length_cons]
      rfl

theorem seedChain_succ (opt : ℕ → List ℚ → List ℚ × StopCondition) :
    ∀ (n i : ℕ) (p : List ℚ),
      seedChain opt i p (n + 1) = (opt (i + n) (seedChain opt i p n)).1 := by
  intro n
  induction n with
  | zero => intro i p; simp [seedChain]
  | succ n ih =>
    intro i p
    show seedChain opt (i + 1) (opt i p).1 (n + 1) = _
    rw [ih (i + 1) (opt i p).1]
    have harith : i + 1 + n = i + (n + 1) := by omega
    rw [harith]
    rfl

/-- C6: the multi-resolution driver processes pyramid levels strictly in
order from coarsest to finest with no level skipped (the trace of level
indices is exactly `0, 1, ..., N-1`), and each level's optimizer state is
seeded from the transform produced by the previous level, the
caller-supplied initial transform seeding level 0. -/
theorem multires_levels_ordered_and_seeded
    (opt : ℕ → List ℚ → List ℚ × StopCondition) (levels : List (ℕ × ℚ))
    (p0 : List ℚ) (sc0 : StopCondition) :
    ((driverLevels opt 0 levels p0 sc0).2.2.map Prod.fst
        = List.range levels.length) ∧
    ((driverLevels opt 0 levels p0 sc0).2.2
        = (List.range levels.length).map
            (fun n => (n, seedChain opt 0 p0 n))) ∧
    seedChain opt 0 p0 0 = p0 ∧
    (∀ n : ℕ, seedChain opt 0 p0 (n + 1)
        = (opt n (seedChain opt 0 p0 n)).1) ∧
    (driverLevels opt 0 levels p0 sc0).1
        = seedChain opt 0 p0 levels.length := by
  obtain ⟨ht, hf⟩ := driverLevels_trace opt levels 0 p0 sc0
  have ht' : (driverLevels opt 0 levels p0 sc0).2.2
      = (List.range levels.length).map
          (fun n => (n, seedChain opt 0 p0 n)) := by
    rw [ht]
    apply List.map_congr_left
    intro n _
    simp
  refine ⟨?_, ht', rfl, ?_, hf⟩
  · rw [ht', List.map_map]
    have hfst : (Prod.fst ∘ fun n : ℕ => (n, seedChain opt 0 p0 n)) = id := rfl
    rw [hfst, List.map_id]
  · intro n
    have h := seedChain_succ opt n 0 p0
    simpa using h

theorem levelLoop_nan (lr : ℚ) (scales : List ℚ)
    (m : List ℚ → MetricOutcome) (hm : ∀ p, m p = .nanGradient)
    (fuel : ℕ) (hfuel : 0 < fuel) (p : List ℚ) :
    levelLoop lr scales m fuel p = (p, .diverged) := by
  cases fuel with
  | zero => omega
  | succ fuel => rw [levelLoop, hm p]

theorem driverLevels_stopped (opt : ℕ → List ℚ → List ℚ × StopCondition)
    (hopt : ∀ i p, opt i p = (p, .diverged)) (levels : List (ℕ × ℚ)) :
    ∀ (i : ℕ) (p : List ℚ) (sc : StopCondition), levels ≠ [] →
      (driverLevels opt i levels p sc).1 = p ∧
      (driverLevels opt i levels p sc).2.1 = .diverged := by
  induction levels with
  | nil => intro _ _ _ h; exact absurd rfl h
  | cons l rest ih =>
    intro i p sc _
    show ((driverLevels opt (i + 1) rest (opt i p).1 (opt i p).2).1 = p ∧
      (driverLevels opt (i + 1) rest (opt i p).1 (opt i p).2).2.1 = .diverged)
    rw [hopt i p]
    cases rest with
    | nil => exact ⟨rfl, rfl⟩
    | cons r rs => exact ih (i + 1) p .diverged (by simp)

/-- C5: the driver's register operation returns a transform together with
a stop-condition descriptor whenever its configuration validates (errors
of type `ConfigError` arise only from configuration validation), and a
metric that reports a NaN gradient at every evaluation still produces an
`ok` result: the unmodified initial transform paired with the `diverged`
stop condition — the numerical failure is absorbed, never raised. -/
theorem register_absorbs_numerical_failures
    (dimFixed dimMoving pixFixed pixMoving : ℕ) (lr : ℚ) (scales : List ℚ)
    (fuel : ℕ) (m : ℕ → List ℚ → MetricOutcome) (levels : List (ℕ × ℚ))
    (p0 : List ℚ) (hdim : dimFixed = dimMoving)
    (hpix : pixFixed = pixMoving) :
    (∃ res : List ℚ × StopCondition,
      registerDriver dimFixed dimMoving pixFixed pixMoving lr scales fuel m
        levels p0 = .ok res) ∧
    ((∀ i p, m i p = .nanGradient) → 0 < fuel → levels ≠ [] →
      registerDriver dimFixed dimMoving pixFixed pixMoving lr scales fuel m
        levels p0 = .ok (p0, .diverged)) := by
  have hok : registerDriver dimFixed dimMoving pixFixed pixMoving lr scales
      fuel m levels p0
      = .ok ((driverLevels (fun i p => levelLoop lr scales (m i) fuel p)
            0 levels p0 .converged).1,
         (driverLevels (fun i p => levelLoop lr scales (m i) fuel p)
            0 levels p0 .converged).2.1) := by
    rw [registerDriver, if_neg (by omega), if_neg (by omega)]
  constructor
  · exact ⟨_, hok⟩
  · intro hm hfuel hne
    rw [hok]
    have hopt : ∀ i p, (fun i p => levelLoop lr scales (m i) fuel p) i p
        = (p, .diverged) := by
      intro i p
      exact levelLoop_nan lr scales (m i) (hm i) fuel hfuel p
    obtain ⟨h1, h2⟩ := driverLevels_stopped _ hopt levels 0 p0 .converged hne
    rw [h1, h2]

/-! ### Orientation-initialization loop (registration3 notebook) -/

/-- The seven candidate orientation matrices of the registration3 notebook
(`possible_orientation_changes`), each a row-major 3x3 matrix. -/
def possible_orientation_changes : List (List ℚ) :=
  [[0, -1, 0, 1, 0, 0, 0, 0, 1],
   [0, 1, 0, -1, 0, 0, 0, 0, 1],
   [-1, 0, 0, 0, -1, 0, 0, 0, 1],
   [1, 0, 0, 0, -1, 0, 0, 0, -1],
   [0, -1, 0, -1, 0, 0, 0, 0, -1],
   [0, 1, 0, 1, 0, 0, 0, 0, -1],
   [-1, 0, 0, 0, 1, 0, 0, 0, -1]]

/-- The identity orientation, the eighth candidate, with which
`best_orientation` is initialized in the notebook. -/
def identity_orientation : List ℚ := [1, 0, 0, 0, 1, 0, 0, 0, 1]

/-- The notebook's MetricEvaluate selection loop: the best value starts at
the identity orientation's metric value, then each candidate in
`possible_orientation_changes` replaces the best exactly when its metric
value is strictly smaller; the selected matrix is what the notebook then
installs on the initial transform via SetMatrix. -/
def select_best_orientation (metric : List ℚ → ℚ) : List ℚ × ℚ :=
  possible_orientation_changes.foldl
    (fun best o => if metric o < best.2 then (o, metric o) else best)
    (identity_orientation, metric identity_orientation)

theorem foldl_best_orientation (metric : List ℚ → ℚ) (l : List (List ℚ)) :
    ∀ b : List ℚ × ℚ, b.2 = metric b.1 →
      ((l.foldl (fun best o => if metric o < best.2 then (o, metric o)
          else best) b).1 = b.1 ∨
        (l.foldl (fun best o => if metric o < best.2 then (o, metric o)
          else best) b).1 ∈ l) ∧
      (l.foldl (fun best o => if metric o < best.2 then (o, metric o)
          else best) b).2
        = metric (l.foldl (fun best o => if metric o < best.2 then
            (o, metric o) else best) b).1 ∧
      (l.foldl (fun best o => if metric o < best.2 then (o, metric o)
          else best) b).2 ≤ b.2 ∧
      ∀ o ∈ l, (l.foldl (fun best o => if metric o < best.2 then
          (o, metric o) else best) b).2 ≤ metric o := by
  induction l with
  | nil =>
    intro b hb
    exact ⟨Or.inl rfl, hb, le_refl _, by simp⟩
  | cons x xs ih =>
    intro b hb
    simp only [List.foldl_cons]
    by_cases hx : metric x < b.2
    · rw [if_pos hx]
      obtain ⟨hmem, hval, hle, hall⟩ := ih (x, metric x) rfl
      refine ⟨?_, hval, ?_, ?_⟩
      · rcases hmem with h | h
        · exact Or.inr (by rw [h]; exact List.mem_cons_self _ _)
        · exact Or.inr (List.mem_cons_of_mem _ h)
      · exact le_trans hle (le_of_lt hx)
      · intro o ho
        rcases List.mem_cons.mp ho with h | h
        · subst h
          exact hle
        · exact hall o h
    · rw [if_neg hx]
      obtain ⟨hmem, hval, hle, hall⟩ := ih b hb
      refine ⟨?_, hval, hle, ?_⟩
      · rcases hmem with h | h
        · exact Or.inl h
        · exact Or.inr (List.mem_cons_of_mem _ h)
      · intro o ho
        rcases List.mem_cons.mp ho with h | h
        · subst h
          exact le_trans hle (not_lt.mp hx)
        · exact hall o h

/-- C7: the orientation-initialization loop of the registration3 notebook
selects an orientation whose pre-optimization metric value is minimal
among all evaluated candidates (the identity seed plus the seven entries
of `possible_orientation_changes`): the selected orientation is one of the
candidates, the recorded best value is its metric value, and that value is
less than or equal to the metric value of every evaluated candidate; the
selected matrix is then the one installed on the initial transform. -/
theorem orientation_selection_minimizes (metric : List ℚ → ℚ) :
    (select_best_orientation metric).1
        ∈ identity_orientation :: possible_orientation_changes ∧
    (select_best_orientation metric).2
        = metric (select_best_orientation metric).1 ∧
    ∀ o ∈ identity_orientation :: possible_orientation_changes,
      (select_best_orientation metric).2 ≤ metric o := by
  obtain ⟨hmem, hval, hle, hall⟩ := foldl_best_orientation metric
    possible_orientation_changes (identity_orientation,
      metric identity_orientation) rfl
  refine ⟨?_, hval, ?_⟩
  · rcases hmem with h | h
    · rw [select_best_orientation, h]
      exact List.mem_cons_self _ _
    · exact List.mem_cons_of_mem _ h
  · intro o ho
    rcases List.mem_cons.mp ho with h | h
    · subst h
      exact hle
    · exact hall o h

theorem orientation_selection_minimizes_witness :
    identity_orientation
        ∈ identity_orientation :: possible_orientation_changes ∧
    (select_best_orientation (fun o => o.headD 0)).2
        ≤ (fun o : List ℚ => o.headD 0) identity_orientation := by
  have h := orientation_selection_minimizes (fun o => o.headD 0)
  exact ⟨List.mem_cons_self _ _,
    h.2.2 identity_orientation (List.mem_cons_self _ _)⟩

/-! ### absolute_orientation_m (utility cell of the timing notebook) -/

/-- Scalar multiple of a 3-vector. -/
def Vec3.smul (c : ℚ) (v : Vec3) : Vec3 := ⟨c * v.x, c * v.y, c * v.z⟩

/-- Sum of a list of 3-vectors. -/
def vecListSum (l : List Vec3) : Vec3 := l.foldl Vec3.add Vec3.zero

/-- Columnwise mean of a point set (numpy `mean(1)` of the 3xN matrix). -/
def vecMean (l : List Vec3) : Vec3 :=
  Vec3.smul (1 / (l.length : ℚ)) (vecListSum l)

/-- Matrix addition. -/
def Mat3.add (A B : Mat3) : Mat3 :=
  ⟨A.a11 + B.a11, A.a12 + B.a12, A.a13 + B.a13,
   A.a21 + B.a21, A.a22 + B.a22, A.a23 + B.a23,
   A.a31 + B.a31, A.a32 + B.a32, A.a33 + B.a33⟩

/-- The zero matrix. -/
def mat3Zero : Mat3 := ⟨0, 0, 0, 0, 0, 0, 0, 0, 0⟩

/-- Outer product of two 3-vectors. -/
def outer3 (u v : Vec3) : Mat3 :=
  ⟨u.x * v.x, u.x * v.y, u.x * v.z,
   u.y * v.x, u.y * v.y, u.y * v.z,
   u.z * v.x, u.z * v.y, u.z * v.z⟩

/-- Diagonal matrix with the given entries. -/
def diag3 (a b c : ℚ) : Mat3 := ⟨a, 0, 0, 0, b, 0, 0, 0, c⟩

/-- Subtraction of two 3-row matrices given as column lists, with numpy's
broadcasting rule on the column counts: equal counts subtract
columnwise, a single column broadcasts against the other operand, and any
other combination raises a ValueError. -/
def npSubCols (A B : List Vec3) : Except String (List Vec3) :=
  if A.length = B.length then .ok (List.zipWith Vec3.sub A B)
  else if A.length = 1 then
    .ok (B.map (fun b => (A.headD Vec3.zero).sub b))
  else if B.length = 1 then
    .ok (A.map (fun a => a.sub (B.headD Vec3.zero)))
  else .error "ValueError: operands could not be broadcast together"

/-- The product `A * B.T` of two 3-row matrices given as column lists (the
sum of columnwise outer products); numpy raises a ValueError when the
inner dimensions disagree. -/
def npDotT (A B : List Vec3) : Except String Mat3 :=
  if A.length = B.length then
    .ok ((List.zipWith outer3 A B).foldl Mat3.add mat3Zero)
  else .error "ValueError: shapes not aligned"

/-- The rotation assembled from an SVD triple (U, S, Vt):
`V * diag(1, 1, det(U*V)) * U.T`, the Umeyama determinant correction of
the source. -/
def rotationFromSvd (usv : Mat3 × Vec3 × Mat3) : Mat3 :=
  ((usv.2.2.transpose).mul
      (diag3 1 1 ((usv.1.mul usv.2.2.transpose).det))).mul
    usv.1.transpose

/-- The notebook's `absolute_orientation_m`, for 3D points (the source
hardcodes the 3D determinant correction `diag(1,1,det(U*V))`): guard that
the number of points is at least the point dimension, center both sets on
their means, form `M = left_M * right_M.T`, decompose with SVD (supplied
here as an oracle, since numpy's SVD is total on finite inputs) and
assemble (R, t).  numpy's shape errors surface through the broadcast and
product checks exactly where the source would raise. -/
def absolute_orientation_m (svd : Mat3 → Mat3 × Vec3 × Mat3)
    (points_in_left points_in_right : List Vec3) :
    Except String (Mat3 × Vec3) :=
  if points_in_left.length < 3 then
    .error "ValueError: Number of points must be greater/equal 3."
  else
    match npSubCols points_in_left
        (List.replicate points_in_left.length (vecMean points_in_left)) with
    | .error e => .error e
    | .ok left_M =>
      match npSubCols points_in_right
          (List.replicate points_in_left.length
            (vecMean points_in_right)) with
      | .error e => .error e
      | .ok right_M =>
        match npDotT left_M right_M with
        | .error e => .error e
        | .ok M =>
          .ok (rotationFromSvd (svd M),
            (vecMean points_in_right).sub
              ((rotationFromSvd (svd M)).mulVec (vecMean points_in_left)))

/-- Whether a computation raised (returned the error constructor). -/
def exceptIsError : Except String (Mat3 × Vec3) → Bool
  | .error _ => true
  | .ok _ => false

/-- C9 (amended): for every non-empty pair of input point lists of equal
length, `absolute_orientation_m` raises ValueError exactly when the number
of point pairs is smaller than 3 (the dimension of the points), and
otherwise returns a pair (R, t) without raising. -/
theorem absolute_orientation_error_iff_insufficient
    (svd : Mat3 → Mat3 × Vec3 × Mat3) (left right : List Vec3)
    (_hne : left ≠ []) (hlen : left.length = right.length) :
    (exceptIsError (absolute_orientation_m svd left right) = true ↔
      left.length < 3) ∧
    (3 ≤ left.length →
      ∃ R t, absolute_orientation_m svd left right = .ok (R, t)) := by
  by_cases h3 : left.length < 3
  · rw [absolute_orientation_m, if_pos h3]
    exact ⟨by simp [exceptIsError, h3], fun h => absurd h (by omega)⟩
  · have hsub1 : npSubCols left
        (List.replicate left.length (vecMean left))
        = .ok (List.zipWith Vec3.sub left
            (List.replicate left.length (vecMean left))) := by
      rw [npSubCols, if_pos (by simp)]
    have hsub2 : npSubCols right
        (List.replicate left.length (vecMean right))
        = .ok (List.zipWith Vec3.sub right
            (List.replicate left.length (vecMean right))) := by
      rw [npSubCols, if_pos (by simp [hlen])]
    have hdot : npDotT
        (List.zipWith Vec3.sub left
          (List.replicate left.length (vecMean left)))
        (List.zipWith Vec3.sub right
          (List.replicate left.length (vecMean right)))
        = .ok ((List.zipWith outer3
            (List.zipWith Vec3.sub left
              (List.replicate left.length (vecMean left)))
            (List.zipWith Vec3.sub right
              (List.replicate left.length (vecMean right)))).foldl
          Mat3.add mat3Zero) := by
      rw [npDotT, if_pos (by simp [hlen])]
    rw [absolute_orientation_m, if_neg h3, hsub1, hsub2]
    dsimp only
    rw [hdot]
    exact ⟨by simp [exceptIsError, h3], fun _ => ⟨_, _, rfl⟩⟩

theorem absolute_orientation_error_iff_insufficient_witness :
    ([Vec3.zero, Vec3.zero, Vec3.zero] : List Vec3) ≠ [] ∧
    ([Vec3.zero, Vec3.zero, Vec3.zero] : List Vec3).length
      = ([⟨1, 0, 0⟩, ⟨0, 1, 0⟩, ⟨0, 0, 1⟩] : List Vec3).length ∧
    (∃ R t, absolute_orientation_m (fun _ => (Mat3.id, Vec3.zero, Mat3.id))
      [Vec3.zero, Vec3.zero, Vec3.zero] [⟨1, 0, 0⟩, ⟨0, 1, 0⟩, ⟨0, 0, 1⟩]
        = .ok (R, t)) := by
  refine ⟨by simp, rfl, ?_⟩
  exact (absolute_orientation_error_iff_insufficient
    (fun _ => (Mat3.id, Vec3.zero, Mat3.id))
    [Vec3.zero, Vec3.zero, Vec3.zero] [⟨1, 0, 0⟩, ⟨0, 1, 0⟩, ⟨0, 0, 1⟩]
    (by simp) rfl).2 (by simp)

/-- C9 counterexample: with three left points and two right points — a
non-empty pair of lists with at least 3 points on the left — the source
raises a ValueError from numpy shape broadcasting inside the computation,
although the number of left points is not smaller than the dimension;
so error-raising is not exactly characterized by the point-count guard. -/
theorem absolute_orientation_unequal_lengths_raises :
    ([Vec3.zero, Vec3.zero, Vec3.zero] : List Vec3) ≠ [] ∧
    ([Vec3.zero, Vec3.zero] : List Vec3) ≠ [] ∧
    ¬ ([Vec3.zero, Vec3.zero, Vec3.zero] : List Vec3).length < 3 ∧
    exceptIsError (absolute_orientation_m
      (fun _ => (Mat3.id, Vec3.zero, Mat3.id))
      [Vec3.zero, Vec3.zero, Vec3.zero] [Vec3.zero, Vec3.zero]) = true := by
  refine ⟨by simp, by simp, by simp, ?_⟩
  rfl

/-! ### register_images (timing notebook) and transform mutation -/

/-- The observable content of a stored transform: type tag, parameter
vector and fixed center (what transform serialization persists and what
the mutation claim quantifies over). -/
structure TransformData where
  typeTag : String
  params : List ℚ
  center : Vec3
deriving DecidableEq, Repr

/-- Default lookup value for the transform store. -/
def defaultTransformData : TransformData := ⟨"Transform", [], Vec3.zero⟩

/-- Modelled from the spec: the registration method object configured by
`register_images` — metric, sampling, interpolator and optimizer settings,
plus the handle of the transform the optimizer will modify. -/
structure RegMethod where
  metricBins : ℕ
  samplingPercentage : ℚ
  interpolator : Kernel
  learningRate : ℚ
  numberOfIterations : ℕ
  scalesFromPhysicalShift : Bool
  initialIndex : Option ℕ

/-- Modelled from the spec: `SetInitialTransform(initial, inPlace=False)`
— the method appends a copy of the caller's transform to the store and
will optimize that copy, leaving the caller's slot untouched. -/
def setInitialTransformNotInPlace (rm : RegMethod)
    (store : List TransformData) (h : ℕ) :
    RegMethod × List TransformData :=
  ({ rm with initialIndex := some store.length },
   store ++ [store.getD h defaultTransformData])

/-- Modelled from the spec: `Execute` runs the optimization (supplied as
an oracle on transform data) and writes the result over the method's
stored initial transform, returning its handle and the stop condition
description. -/
def executeMethod (optimize : TransformData → TransformData)
    (stopDescription : TransformData → String) (rm : RegMethod)
    (store : List TransformData) : List TransformData × ℕ × String :=
  match rm.initialIndex with
  | none => (store, 0, "no initial transform set")
  | some idx =>
    (store.set idx (optimize (store.getD idx defaultTransformData)), idx,
     stopDescription (optimize (store.getD idx defaultTransformData)))

/-- The timing notebook's `register_images`: configure Mattes mutual
information (50 bins, regular sampling at 1 percent), the given
interpolator, gradient descent (learning rate 1.0, 1000 iterations) with
physical-shift scales, set the initial transform with `inPlace=False`,
execute, and return the final transform handle with the stop condition
description. -/
def register_images (optimize : Image3 → Image3 → TransformData → TransformData)
    (stopDescription : TransformData → String)
    (fixed_image moving_image : Image3) (store : List TransformData)
    (initial_transform : ℕ) (interpolator : Kernel) :
    (ℕ × String) × List TransformData :=
  let rm : RegMethod := ⟨50, 1/100, interpolator, 1, 1000, true, none⟩
  let afterSet := setInitialTransformNotInPlace rm store initial_transform
  let result := executeMethod (optimize fixed_image moving_image)
    stopDescription afterSet.1 afterSet.2
  ((result.2.1, result.2.2), result.1)

/-- C10: `register_images` never mutates the caller-supplied initial
transform: after the call the store entry of the initial transform — its
parameters, center and type tag — is identical to its value before the
call; the method optimizes a fresh copy appended to the store (the
returned handle is the copy's slot, which holds the optimized result). -/
theorem register_images_preserves_initial_transform
    (optimize : Image3 → Image3 → TransformData → TransformData)
    (stopDescription : TransformData → String)
    (fixed_image moving_image : Image3) (store : List TransformData)
    (initial_transform : ℕ) (interpolator : Kernel)
    (hh : initial_transform < store.length) :
    ((register_images optimize stopDescription fixed_image moving_image
        store initial_transform interpolator).2.getD initial_transform
        defaultTransformData
      = store.getD initial_transform defaultTransformData) ∧
    ((register_images optimize stopDescription fixed_image moving_image
        store initial_transform interpolator).2.getD initial_transform
        defaultTransformData).params
      = (store.getD initial_transform defaultTransformData).params ∧
    ((register_images optimize stopDescription fixed_image moving_image
        store initial_transform interpolator).2.getD initial_transform
        defaultTransformData).center
      = (store.getD initial_transform defaultTransformData).center ∧
    ((register_images optimize stopDescription fixed_image moving_image
        store initial_transform interpolator).2.getD initial_transform
        defaultTransformData).typeTag
      = (store.getD initial_transform defaultTransformData).typeTag ∧
    ((register_images optimize stopDescription fixed_image moving_image
        store initial_transform interpolator).1.1 = store.length) ∧
    ((register_images optimize stopDescription fixed_image moving_image
        store initial_transform interpolator).2.getD store.length
        defaultTransformData
      = optimize fixed_image moving_image
          (store.getD initial_transform defaultTransformData)) := by
  have hstore : (register_images optimize stopDescription fixed_image
      moving_image store initial_transform interpolator).2
      = (store ++ [store.getD initial_transform defaultTransformData]).set
          store.length
          (optimize fixed_image moving_image
            ((store ++ [store.getD initial_transform
              defaultTransformData]).getD store.length
              defaultTransformData)) := rfl
  have hcopy : (store ++ [store.getD initial_transform
      defaultTransformData]).getD store.length defaultTransformData
      = store.getD initial_transform defaultTransformData := by
    simp [List.getD]
  have hmain : (register_images optimize stopDescription fixed_image
      moving_image store initial_transform interpolator).2.getD
      initial_transform defaultTransformData
      = store.getD initial_transform defaultTransformData := by
    rw [hstore, hcopy]
    unfold List.getD
    simp only [List.get?_eq_getElem?]
    rw [List.getElem?_set_ne (by omega), List.getElem?_append_left hh]
  have hnew : (register_images optimize stopDescription fixed_image
      moving_image store initial_transform interpolator).2.getD
      store.length defaultTransformData
      = optimize fixed_image moving_image
          (store.getD initial_transform defaultTransformData) := by
    rw [hstore, hcopy]
    unfold List.getD
    simp only [List.get?_eq_getElem?]
    rw [List.getElem?_set_eq_of_lt _ (by simp)]
    rfl
  exact ⟨hmain, by rw [hmain], by rw [hmain], by rw [hmain], rfl, hnew⟩

theorem register_absorbs_numerical_failures_witness :
    registerDriver 3 3 1 1 1 [1] 2 (fun _ _ => .nanGradient) [(4, 2)] [5]
      = .ok ([5], .diverged) :=
  (register_absorbs_numerical_failures 3 3 1 1 1 [1] 2
    (fun _ _ => .nanGradient) [(4, 2)] [5] rfl rfl).2
    (fun _ _ => rfl) (by omega) (by simp)

theorem register_images_preserves_initial_transform_witness :
    (0 : ℕ) < ([⟨"Euler3DTransform", [0, 0, 0, 0, 0, 0], Vec3.zero⟩] :
      List TransformData).length ∧
    (register_images (fun _ _ t => { t with params := [1, 2, 3, 4, 5, 6] })
        (fun _ => "converged") constImage6 constImage6
        [⟨"Euler3DTransform", [0, 0, 0, 0, 0, 0], Vec3.zero⟩] 0
        .linear).2.getD 0 defaultTransformData
      = ([⟨"Euler3DTransform", [0, 0, 0, 0, 0, 0], Vec3.zero⟩] :
          List TransformData).getD 0 defaultTransformData := by
  refine ⟨by simp, ?_⟩
  exact (register_images_preserves_initial_transform
    (fun _ _ t => { t with params := [1, 2, 3, 4, 5, 6] })
    (fun _ => "converged") constImage6 constImage6
    [⟨"Euler3DTransform", [0, 0, 0, 0, 0, 0], Vec3.zero⟩] 0 .linear
    (by simp)).1
